import Mathlib

/-!
Verification of the class-supplementation utility (`supplement`,
`supplementAll`, `iterateDescriptors` and the supplementation-metadata
helpers).  The definitions below are a shallow embedding of the JavaScript
source: member tables are association lists of property descriptors, the
ECMAScript behaviour of the built-ins the code relies on
(`Object.getOwnPropertyDescriptors`, `Object.entries`, property
assignment, `ToObject`, `ToPropertyKey`) is spelled out explicitly, and
the asynchronous coordinator is modelled as a state machine whose atomic
steps are the synchronous segments of the source (the prefix of
`supplement` up to its first `await`, and the copy phase that runs after
the source module has resolved).
-/

namespace Supplementation

/-- A JavaScript value as far as the copy policy can distinguish them:
a callable (function) value, a non-callable primitive/data value (both
identified by an opaque tag), or `undefined`. -/
inductive Value where
  | callable (id : Nat)
  | prim (id : Nat)
  | undefinedV
deriving DecidableEq, Repr

/-- A property descriptor as returned by `Object.getOwnPropertyDescriptors`:
either a data descriptor carrying a `writable` flag and a value, or an
accessor descriptor, which carries *no* `writable` field and no `value`
field — only a getter and/or a setter (either may be absent, i.e.
`undefined`). -/
inductive Descriptor where
  | dataDesc (writable : Bool) (value : Value)
  | accessorDesc (getId setId : Option Nat)
deriving DecidableEq, Repr

/-- Reading `descriptor.writable` as a boolean condition: on an accessor
descriptor the field is absent, i.e. `undefined`, which is falsy — so the
check `!value.writable` in `supplement` treats every accessor as
non-writable. -/
def Descriptor.isWritable : Descriptor → Bool
  | .dataDesc w _ => w
  | .accessorDesc _ _ => false

/-- Reading `descriptor.value`: `undefined` on an accessor descriptor. -/
def Descriptor.value : Descriptor → Value
  | .dataDesc _ v => v
  | .accessorDesc _ _ => .undefinedV

/-- A member table: the own property descriptors of one object (a class
constructor's static table or a prototype's instance-method table), in
own-property enumeration order.  Keys are unique in any table produced by
the JavaScript runtime. -/
abbrev Table := List (String × Descriptor)

/-- Own-property lookup in a table (first entry with the given key). -/
def lookupT : Table → String → Option Descriptor
  | [], _ => none
  | (k', d) :: rest, k => if k' = k then some d else lookupT rest k

/-- The single error the modelled fragment can raise: the `TypeError`
thrown by `ToObject` on `null`/`undefined` and by a failed strict-mode
assignment. -/
inductive JSError where
  | typeError
deriving DecidableEq, Repr

/-- JavaScript assignment `obj[key] = v` in strict mode (the source is an
ES module): when the key is absent, a fresh writable data property is
appended; when the existing own entry is a writable data property, its
value is overwritten in place (property order is preserved); when it is a
non-writable data property, the assignment throws a `TypeError`; when it
is an accessor, the setter is invoked — leaving the own entry itself
unchanged — or, if the accessor has no setter, a `TypeError` is thrown.
Inherited accessors on `Function.prototype`/`Object.prototype` do not
shadow the method-table keys involved here and are not modelled.
`replaceEntry` is the in-place value update of an existing writable data
entry (property order preserved). -/
def replaceEntry : Table → String → Value → Table
  | [], _, _ => []
  | (k', d) :: rest, k, v =>
    if k' = k then (k', .dataDesc true v) :: rest
    else (k', d) :: replaceEntry rest k v

/-- Strict-mode `[[Set]]` on the table, branching on the existing own
entry exactly as `OrdinarySetWithOwnDescriptor` does. -/
def setProp (t : Table) (k : String) (v : Value) : Except JSError Table :=
  match lookupT t k with
  | none => .ok (t ++ [(k, .dataDesc true v)])
  | some (.dataDesc true _) => .ok (replaceEntry t k v)
  | some (.dataDesc false _) => .error .typeError
  | some (.accessorDesc _ (some _)) => .ok t
  | some (.accessorDesc _ none) => .error .typeError

/-- Whether strict-mode assignment at this key would install the data
property: true when the key is absent or its own entry is a writable data
property; false when the entry is non-writable (assignment throws) or an
accessor (assignment routes through the setter or throws). -/
def dataAssignable (t : Table) (k : String) : Bool :=
  match lookupT t k with
  | none => true
  | some (.dataDesc true _) => true
  | some _ => false

/-- The inputs `iterateDescriptors` can receive, following the JavaScript
value universe relevant to `Object.getOwnPropertyDescriptors`: `null`,
`undefined`, a number, a boolean, a string, or an object (its table of
own property descriptors). -/
inductive JSVal where
  | vnull
  | vundef
  | vnum (n : Int)
  | vbool (b : Bool)
  | vstr (s : String)
  | vobj (t : Table)

/-- Own property descriptors of the wrapper object a primitive string is
coerced to: one non-writable entry per character index plus the
non-writable `length` property. -/
def stringWrapperTable (s : String) : Table :=
  ((List.range s.length).map fun i => (toString i, Descriptor.dataDesc false (.prim i)))
    ++ [("length", Descriptor.dataDesc false (.prim s.length))]

/-- ECMAScript `ToObject`, performed by `Object.getOwnPropertyDescriptors`
on its argument: throws `TypeError` on `null`/`undefined`; coerces other
primitives to wrapper objects (a number or boolean wrapper has no own
properties; a string wrapper has its index properties and `length`);
returns an object unchanged. -/
def toObject : JSVal → Except JSError Table
  | .vnull => .error .typeError
  | .vundef => .error .typeError
  | .vnum _ => .ok []
  | .vbool _ => .ok []
  | .vstr s => .ok (stringWrapperTable s)
  | .vobj t => .ok t

/-- The `[key, descriptor]` pairs `Object.entries(Object.getOwnPropertyDescriptors(cls))`
yields with the `key !== "constructor"` filter of `iterateDescriptors`
applied.  `Object.entries` sees every own property of the argument, since
the descriptors object's own properties are all created enumerable. -/
def ownEntriesExceptConstructor (t : Table) : List (String × Descriptor) :=
  t.filter fun kd => !(kd.1 == "constructor")

/-- `iterateDescriptors(cls, cb)` from the source: the sequence of pairs
the callback is invoked on, or the `TypeError` from `ToObject`. -/
def iterateDescriptors (v : JSVal) : Except JSError (List (String × Descriptor)) :=
  (toObject v).map ownEntriesExceptConstructor

/-- One step of the copy loop inside `supplement`: the callback body
`if (!value.writable) return; mainClass[key] = value.value` — the
strict-mode assignment can throw. -/
def assignStep (acc : Table) (kd : String × Descriptor) : Except JSError Table :=
  if kd.2.isWritable then setProp acc kd.1 kd.2.value else .ok acc

/-- The copy loop over an entry list: a thrown `TypeError` propagates out
of `forEach` immediately, aborting the remaining entries; there is no
rollback, so the table reflects every assignment made before the throw. -/
def copyRun : Table → List (String × Descriptor) → Except JSError Unit × Table
  | tgt, [] => (.ok (), tgt)
  | tgt, kd :: rest =>
    match assignStep tgt kd with
    | .ok t2 => copyRun t2 rest
    | .error e => (.error e, tgt)

/-- The whole copy loop of `supplement` over one source table: iterate the
own descriptors except `"constructor"`, assigning each writable one onto
the target table; returns the outcome and the (possibly partially
updated) target table. -/
def copyTable (tgt : Table) (src : Table) : Except JSError Unit × Table :=
  copyRun tgt (ownEntriesExceptConstructor src)

/-- A class declaration: its declared static members and its declared
prototype (instance) members, in declaration order. -/
structure ClassDef where
  statics : Table
  instanceMembers : Table

/-- The static table (own properties of the class constructor function).
Per ECMAScript class semantics every class constructor owns the intrinsic
non-writable properties `length`, `name` and `prototype` in addition to
its declared static members. -/
def classStaticTable (c : ClassDef) : Table :=
  ("length", Descriptor.dataDesc false (.prim 0)) ::
  ("name", Descriptor.dataDesc false (.prim 1)) ::
  ("prototype", Descriptor.dataDesc false (.prim 2)) :: c.statics

/-- The instance-method table (own properties of the class prototype):
the writable `constructor` back-reference followed by the declared
instance members. -/
def classProtoTable (c : ClassDef) : Table :=
  ("constructor", Descriptor.dataDesc true (.callable 0)) :: c.instanceMembers

/-- A class that declares only a constructor and no other members. -/
def constructorOnlyClass : ClassDef := ⟨[], []⟩

/-- A source (the resolved module's class, after the
`partialClass.default || partialClass` unwrapping): its prototype table
and its static table. -/
structure SourceClass where
  protoTable : Table
  staticTable : Table

/-- The mutable state `supplement` and the metadata helpers maintain on a
target class: whether the symbol-keyed supplementation metadata has been
attached, the value of the `SUPPLEMENTATION_COUNT` property, how many
times the `SUPPLEMENTATION_RESOLVE` callback has been invoked (a promise
settles on the first invocation; later invocations are no-ops), and the
class's two member tables. -/
structure ClassState where
  hasMetadata : Bool
  count : Int
  resolveCount : Nat
  protoTable : Table
  staticTable : Table
deriving DecidableEq, Repr

/-- `addSupplementationMetadata` from `utils/metadata.js`: when the
`SUPPLEMENTATION_COMPLETED` promise is not yet present, set the count to
0 and install the promise together with the started/ended callbacks;
otherwise do nothing. -/
def addSupplementationMetadata (s : ClassState) : ClassState :=
  if s.hasMetadata then s
  else { s with hasMetadata := true, count := 0, resolveCount := 0 }

/-- The `SUPPLEMENTATION_STARTED_SINGLE` callback: increment the count. -/
def startedSingle (s : ClassState) : ClassState :=
  { s with count := s.count + 1 }

/-- The `SUPPLEMENTATION_ENDED_SINGLE` callback: decrement the count and,
when it reaches 0, invoke the stored promise resolver. -/
def endedSingle (s : ClassState) : ClassState :=
  let c := s.count - 1
  { s with
    count := c,
    resolveCount := if c = 0 then s.resolveCount + 1 else s.resolveCount }

/-- The synchronous copy phase of one `supplement` call, which runs after
`await partialClass` has produced a class: started callback, copy of the
prototype table, copy of the static table, ended callback.  The segment
runs without interleaving on the event loop, but a strict-mode
`TypeError` thrown by an assignment aborts it: the exception propagates
out of the `async` function (rejecting the call), the remaining copies do
not run, and `SUPPLEMENTATION_ENDED_SINGLE` is never reached — so the
counter keeps its incremented value. -/
def copyPhase (s : ClassState) (src : SourceClass) :
    Except JSError Unit × ClassState :=
  match copyTable s.protoTable src.protoTable with
  | (.error e, tp) => (.error e, { startedSingle s with protoTable := tp })
  | (.ok _, tp) =>
    match copyTable s.staticTable src.staticTable with
    | (.error e, ts) =>
      (.error e, { startedSingle s with protoTable := tp, staticTable := ts })
    | (.ok _, ts) =>
      (.ok (),
        endedSingle { startedSingle s with protoTable := tp, staticTable := ts })

/-- The resumption of one in-flight `supplement` call once its source
resolution settles: on a successful resolution (`some src`) the copy
phase runs (its rejection, if any, is that call's alone and does not stop
other calls); on a rejected resolution (`none`) the `await` throws and
the call ends with no further state change. -/
def resumePhase (s : ClassState) : Option SourceClass → ClassState
  | none => s
  | some src => (copyPhase s src).2

/-- A batch of resumptions executed in completion order (each one atomic
on the event loop). -/
def runResumes (s : ClassState) (rs : List (Option SourceClass)) : ClassState :=
  rs.foldl resumePhase s

/-- Whether one resumption completes without throwing: a rejected
resolution never enters a copy phase, and a successful one completes
exactly when its copy phase raises no `TypeError`. -/
def resumeOk (s : ClassState) : Option SourceClass → Bool
  | none => true
  | some src =>
    match (copyPhase s src).1 with
    | .ok _ => true
    | .error _ => false

/-- Whether every resumed copy phase in a batch runs to its end without a
strict-mode `TypeError`, along the states the batch itself produces. -/
def allResumesOk : ClassState → List (Option SourceClass) → Bool
  | _, [] => true
  | s, r :: rest => resumeOk s r && allResumesOk (resumePhase s r) rest

/-- One `supplement(mainClass, partialClass)` call run to completion with
no other call interleaved: the synchronous prefix attaches the metadata,
then the source resolution is awaited — `Except.error` models the
rejection that propagates either when the import/load fails (in which
case the counter callbacks and the copy loops are never reached) or when
the copy phase throws a strict-mode `TypeError`. -/
def supplementRun (s : ClassState) (res : Option SourceClass) :
    Except Unit Unit × ClassState :=
  let sA := addSupplementationMetadata s
  match res with
  | none => (.error (), sA)
  | some src =>
    match copyPhase sA src with
    | (.ok _, s2) => (.ok (), s2)
    | (.error _, s2) => (.error (), s2)

/-- Whether the `SUPPLEMENTATION_COMPLETED` promise has settled: true as
soon as the resolver has been invoked at least once. -/
def signalResolved (s : ClassState) : Prop := 1 ≤ s.resolveCount

instance (s : ClassState) : Decidable (signalResolved s) := by
  unfold signalResolved; infer_instance

/-- The extension allow-list of `supplementAll`. -/
def validExtensions : List String := [".js", ".ts", ".mjs", ".cjs"]

/-- Index of the last `.` in a character list, if any. -/
def lastDotIdx : List Char → Option Nat
  | [] => none
  | c :: rest =>
    match lastDotIdx rest with
    | some i => some (i + 1)
    | none => if c = '.' then some 0 else none

/-- Node's `path.extname` on a directory entry (a bare file name, as
returned by `fs.readdir`): the suffix from the last dot, or the empty
string when there is no dot, the only dot is the leading character, or
the name is exactly `".."`. -/
def extname (s : String) : String :=
  if s = ".." then ""
  else
    match lastDotIdx s.toList with
    | none => ""
    | some 0 => ""
    | some i => String.mk (s.toList.drop i)

/-- The extension test `validExtensions.includes(path.extname(file))`
applied to one directory entry. -/
def acceptedFile (f : String) : Bool := validExtensions.contains (extname f)

/-- The directory entries for which `supplementAll` issues a
`supplement(mainClass, path.join(directory, file))` call, in listing
order; entries failing the extension test are never passed on. -/
def supplementAllCalls (files : List String) : List String :=
  files.filter acceptedFile

/-- The names under which `SUPPLEMENTED_SYMBOLS` defines a symbol. -/
def supplementedSymbolNames : List String :=
  ["SUPPLEMENTATION_COMPLETED", "SUPPLEMENTATION_STARTED_SINGLE",
   "SUPPLEMENTATION_ENDED_SINGLE", "SUPPLEMENTATION_COUNT",
   "SUPPLEMENTATION_RESOLVE"]

/-- Member access `SUPPLEMENTED_SYMBOLS.name`: the symbol registered
under `name`, or `undefined` (`none`) when no such property exists.
Each defined symbol is identified by its registration name. -/
def symbolFor (name : String) : Option String :=
  if supplementedSymbolNames.contains name then some name else none

/-- A property key: one of the supplementation symbols, or a string key. -/
inductive PropKey where
  | symKey (s : String)
  | strKey (s : String)

/-- ECMAScript `ToPropertyKey` applied to the result of a symbol-table
access: a symbol stays a symbol key, while `undefined` is converted to
the string key `"undefined"`. -/
def toPropertyKey : Option String → PropKey
  | some s => .symKey s
  | none => .strKey "undefined"

/-- The values a property read on a supplemented class can produce:
the numeric count, the completion promise, one of the installed metadata
callbacks, or an ordinary member of the class's static table. -/
inductive PropVal where
  | numV (n : Int)
  | promiseV (resolved : Bool)
  | fnV
  | memberV (v : Value)
deriving DecidableEq, Repr

/-- Property read `mainClass[key]` in the modelled fragment: symbol keys
hit the supplementation metadata (present only once
`addSupplementationMetadata` has run), string keys hit the class's own
static member table. -/
def getProp (s : ClassState) : PropKey → Option PropVal
  | .symKey name =>
    if s.hasMetadata then
      if name = "SUPPLEMENTATION_COUNT" then some (.numV s.count)
      else if name = "SUPPLEMENTATION_COMPLETED" then
        some (.promiseV (decide (1 ≤ s.resolveCount)))
      else if supplementedSymbolNames.contains name then some .fnV
      else none
    else none
  | .strKey k => (lookupT s.staticTable k).map fun d => .memberV d.value

/-- `getSupplementationMetadata` from `utils/metadata.js`: returns
`mainClass[SUPPLEMENTED_SYMBOLS.SUPPLEMENTATION_COMPLETE]`. -/
def getSupplementationMetadata (s : ClassState) : Option PropVal :=
  getProp s (toPropertyKey (symbolFor "SUPPLEMENTATION_COMPLETE"))

/-- `isSupplementationComplete` from `utils/metadata.js`: returns
`mainClass[SUPPLEMENTED_SYMBOLS.SUPPLEMENTATION_COMPLETE]`. -/
def isSupplementationComplete (s : ClassState) : Option PropVal :=
  getProp s (toPropertyKey (symbolFor "SUPPLEMENTATION_COMPLETE"))

/-- A fresh target class that has never been supplemented: no metadata,
and the member tables of a class declaring only a constructor. -/
def freshTarget : ClassState :=
  ⟨false, 0, 0, classProtoTable constructorOnlyClass,
    classStaticTable constructorOnlyClass⟩

/-- A first demonstration source: one instance method `m1`. -/
def srcA : SourceClass := ⟨[("m1", .dataDesc true (.callable 1))], []⟩

/-- A second demonstration source: one instance method `m2`. -/
def srcB : SourceClass := ⟨[("m2", .dataDesc true (.callable 2))], []⟩

/-! Lemmas about strict-mode assignment and the copy loop. -/

theorem dataAssignable_congr (t1 t2 : Table) (k : String)
    (h : lookupT t1 k = lookupT t2 k) :
    dataAssignable t1 k = dataAssignable t2 k := by
  unfold dataAssignable
  rw [h]

theorem lookupT_append_self (t : Table) (k : String) (v : Value)
    (h : lookupT t k = none) :
    lookupT (t ++ [(k, .dataDesc true v)]) k = some (.dataDesc true v) := by
  induction t with
  | nil => simp [lookupT]
  | cons hd tl ih =>
    obtain ⟨k', d⟩ := hd
    by_cases hk : k' = k
    · rw [lookupT, if_pos hk] at h
      cases h
    · rw [lookupT, if_neg hk] at h
      rw [List.cons_append, lookupT, if_neg hk]
      exact ih h

theorem lookupT_append_other (t : Table) (k : String) (v : Value)
    (q : String) (hq : q ≠ k) :
    lookupT (t ++ [(k, .dataDesc true v)]) q = lookupT t q := by
  induction t with
  | nil =>
    have hkq : ¬ (k = q) := fun hh => hq hh.symm
    simp [lookupT, hkq]
  | cons hd tl ih =>
    obtain ⟨k', d⟩ := hd
    by_cases hk : k' = q
    · rw [List.cons_append, lookupT, if_pos hk, lookupT, if_pos hk]
    · rw [List.cons_append, lookupT, if_neg hk, lookupT, if_neg hk]
      exact ih

theorem replaceEntry_lookup_self (t : Table) (k : String) (v : Value) :
    lookupT (replaceEntry t k v) k =
      (lookupT t k).map (fun _ => .dataDesc true v) := by
  induction t with
  | nil => rfl
  | cons hd tl ih =>
    obtain ⟨k', d⟩ := hd
    by_cases hk : k' = k
    · rw [replaceEntry, if_pos hk, lookupT, if_pos hk, lookupT, if_pos hk]
      rfl
    · rw [replaceEntry, if_neg hk, lookupT, if_neg hk, lookupT, if_neg hk]
      exact ih

theorem replaceEntry_lookup_other (t : Table) (k : String) (v : Value)
    (q : String) (hq : q ≠ k) :
    lookupT (replaceEntry t k v) q = lookupT t q := by
  induction t with
  | nil => rfl
  | cons hd tl ih =>
    obtain ⟨k', d⟩ := hd
    by_cases hk : k' = k
    · subst hk
      have hkq : ¬ (k' = q) := fun hh => hq hh.symm
      rw [replaceEntry, if_pos rfl, lookupT, if_neg hkq, lookupT, if_neg hkq]
    · by_cases hkq : k' = q
      · rw [replaceEntry, if_neg hk, lookupT, if_pos hkq, lookupT, if_pos hkq]
      · rw [replaceEntry, if_neg hk, lookupT, if_neg hkq, lookupT, if_neg hkq]
        exact ih

theorem setProp_ok_self (t : Table) (k : String) (v : Value) (t2 : Table)
    (h : setProp t k v = .ok t2) (hda : dataAssignable t k = true) :
    lookupT t2 k = some (.dataDesc true v) := by
  unfold setProp at h
  unfold dataAssignable at hda
  cases hl : lookupT t k with
  | none =>
    rw [hl] at h
    simp at h
    rw [← h]
    exact lookupT_append_self t k v hl
  | some d =>
    rw [hl] at h hda
    match d with
    | .dataDesc true w =>
      simp at h
      rw [← h, replaceEntry_lookup_self, hl]
      rfl
    | .dataDesc false w => simp at hda
    | .accessorDesc g st => simp at hda

theorem setProp_ok_not_assignable (t : Table) (k : String) (v : Value)
    (t2 : Table) (h : setProp t k v = .ok t2)
    (hda : dataAssignable t k = false) :
    lookupT t2 k = lookupT t k := by
  unfold setProp at h
  unfold dataAssignable at hda
  cases hl : lookupT t k with
  | none =>
    rw [hl] at hda
    cases hda
  | some d =>
    rw [hl] at h hda
    match d with
    | .dataDesc true w => simp at hda
    | .dataDesc false w => simp at h
    | .accessorDesc g (some st) =>
      simp at h
      rw [← h]
      exact hl
    | .accessorDesc g none => simp at h

theorem setProp_ok_other (t : Table) (k : String) (v : Value) (t2 : Table)
    (q : String) (h : setProp t k v = .ok t2) (hq : q ≠ k) :
    lookupT t2 q = lookupT t q := by
  unfold setProp at h
  cases hl : lookupT t k with
  | none =>
    rw [hl] at h
    simp at h
    rw [← h]
    exact lookupT_append_other t k v q hq
  | some d =>
    rw [hl] at h
    match d with
    | .dataDesc true w =>
      simp at h
      rw [← h]
      exact replaceEntry_lookup_other t k v q hq
    | .dataDesc false w => simp at h
    | .accessorDesc g (some st) =>
      simp at h
      rw [← h]
    | .accessorDesc g none => simp at h
theorem copyRun_lookup_unchanged (l : List (String × Descriptor))
    (tgt : Table) (k : String)
    (h : ∀ d, (k, d) ∈ l → d.isWritable = false) :
    lookupT (copyRun tgt l).2 k = lookupT tgt k := by
  induction l generalizing tgt with
  | nil => rfl
  | cons hd tl ih =>
    obtain ⟨k₀, d₀⟩ := hd
    cases hw : d₀.isWritable with
    | false =>
      have hstep : copyRun tgt ((k₀, d₀) :: tl) = copyRun tgt tl := by
        simp [copyRun, assignStep, hw]
      rw [hstep]
      exact ih tgt (fun d hd' => h d (List.mem_cons_of_mem _ hd'))
    | true =>
      have hk0 : k₀ ≠ k := by
        intro hh
        subst hh
        exact absurd hw (by rw [h d₀ (List.mem_cons_self _ _)]; simp)
      cases hsp : setProp tgt k₀ d₀.value with
      | ok t2 =>
        have hstep : copyRun tgt ((k₀, d₀) :: tl) = copyRun t2 tl := by
          simp [copyRun, assignStep, hw, hsp]
        rw [hstep]
        rw [ih t2 (fun d hd' => h d (List.mem_cons_of_mem _ hd'))]
        exact setProp_ok_other tgt k₀ d₀.value t2 k hsp (fun hh => hk0 hh.symm)
      | error e =>
        have hstep : copyRun tgt ((k₀, d₀) :: tl) = (.error e, tgt) := by
          simp [copyRun, assignStep, hw, hsp]
        rw [hstep]

theorem copyRun_lookup_copied (l : List (String × Descriptor))
    (tgt : Table) (k : String) (d : Descriptor)
    (hnd : (l.map Prod.fst).Nodup) (hmem : (k, d) ∈ l)
    (hw : d.isWritable = true) (hda : dataAssignable tgt k = true)
    (hok : (copyRun tgt l).1 = .ok ()) :
    lookupT (copyRun tgt l).2 k = some (.dataDesc true d.value) := by
  induction l generalizing tgt with
  | nil => cases hmem
  | cons hd tl ih =>
    obtain ⟨k₀, d₀⟩ := hd
    rw [List.map_cons, List.nodup_cons] at hnd
    rcases List.mem_cons.mp hmem with heq | htl
    · rw [Prod.mk.injEq] at heq
      obtain ⟨hk0, hd0⟩ := heq
      subst hk0
      subst hd0
      cases hsp : setProp tgt k d.value with
      | ok t2 =>
        have hstep : copyRun tgt ((k, d) :: tl) = copyRun t2 tl := by
          simp [copyRun, assignStep, hw, hsp]
        rw [hstep]
        rw [copyRun_lookup_unchanged tl t2 k ?side]
        case side =>
          intro d' hd'
          exact absurd (List.mem_map.mpr ⟨(k, d'), hd', rfl⟩) hnd.1
        exact setProp_ok_self tgt k d.value t2 hsp hda
      | error e =>
        have hstep : copyRun tgt ((k, d) :: tl) = (.error e, tgt) := by
          simp [copyRun, assignStep, hw, hsp]
        rw [hstep] at hok
        cases hok
    · have hk0 : k₀ ≠ k := by
        intro hh
        exact hnd.1 (hh ▸ List.mem_map.mpr ⟨(k, d), htl, rfl⟩)
      cases hw0 : d₀.isWritable with
      | false =>
        have hstep : copyRun tgt ((k₀, d₀) :: tl) = copyRun tgt tl := by
          simp [copyRun, assignStep, hw0]
        rw [hstep] at hok ⊢
        exact ih tgt hnd.2 htl hda hok
      | true =>
        cases hsp : setProp tgt k₀ d₀.value with
        | ok t2 =>
          have hstep : copyRun tgt ((k₀, d₀) :: tl) = copyRun t2 tl := by
            simp [copyRun, assignStep, hw0, hsp]
          rw [hstep] at hok ⊢
          have hlk : lookupT t2 k = lookupT tgt k :=
            setProp_ok_other tgt k₀ d₀.value t2 k hsp (fun hh => hk0 hh.symm)
          have hda2 : dataAssignable t2 k = true := by
            rw [dataAssignable_congr t2 tgt k hlk]
            exact hda
          exact ih t2 hnd.2 htl hda2 hok
        | error e =>
          have hstep : copyRun tgt ((k₀, d₀) :: tl) = (.error e, tgt) := by
            simp [copyRun, assignStep, hw0, hsp]
          rw [hstep] at hok
          cases hok

/-- In a table with pairwise-distinct keys (as own-property tables are),
a key determines its descriptor. -/
theorem key_determines_descriptor (src : Table)
    (hnd : (src.map Prod.fst).Nodup) (k : String) (d d' : Descriptor)
    (h1 : (k, d) ∈ src) (h2 : (k, d') ∈ src) : d = d' := by
  induction src with
  | nil => cases h1
  | cons hd tl ih =>
    obtain ⟨k₀, d₀⟩ := hd
    rw [List.map_cons, List.nodup_cons] at hnd
    rcases List.mem_cons.mp h1 with e1 | m1
    · rcases List.mem_cons.mp h2 with e2 | m2
      · rw [Prod.mk.injEq] at e1 e2
        rw [e1.2, e2.2]
      · exfalso
        apply hnd.1
        rw [Prod.mk.injEq] at e1
        exact e1.1 ▸ List.mem_map.mpr ⟨(k, d'), m2, rfl⟩
    · rcases List.mem_cons.mp h2 with e2 | m2
      · exfalso
        apply hnd.1
        rw [Prod.mk.injEq] at e2
        exact e2.1 ▸ List.mem_map.mpr ⟨(k, d), m1, rfl⟩
      · exact ih hnd.2 m1 m2

/-- A key none of whose source entries is an eligible (non-constructor,
writable) descriptor is left unchanged by the copy loop, whether or not
the loop aborts on some other key. -/
theorem copyTable_lookup_unchanged (src : Table) (tgt : Table) (k : String)
    (h : ∀ d, (k, d) ∈ src → k = "constructor" ∨ d.isWritable = false) :
    lookupT (copyTable tgt src).2 k = lookupT tgt k := by
  apply copyRun_lookup_unchanged
  intro d hd
  have hmem := List.mem_filter.mp hd
  rcases h d hmem.1 with hctor | hnw
  · exfalso
    have := hmem.2
    simp [hctor] at this
  · exact hnw

/-- An eligible source entry — non-constructor key, writable
descriptor — whose target entry is absent or a writable data property
ends up on the target with the source's value, provided the copy loop
runs to the end without throwing. -/
theorem copyTable_lookup_copied (src : Table) (tgt : Table)
    (k : String) (d : Descriptor)
    (hnd : (src.map Prod.fst).Nodup) (hmem : (k, d) ∈ src)
    (hk : k ≠ "constructor") (hw : d.isWritable = true)
    (hda : dataAssignable tgt k = true)
    (hok : (copyTable tgt src).1 = .ok ()) :
    lookupT (copyTable tgt src).2 k = some (.dataDesc true d.value) := by
  apply copyRun_lookup_copied (ownEntriesExceptConstructor src) tgt k d ?nd
    ?mem hw hda hok
  case nd =>
    exact List.Nodup.sublist
      (List.Sublist.map Prod.fst (List.filter_sublist src)) hnd
  case mem =>
    exact List.mem_filter.mpr ⟨hmem, by simp [hk]⟩

/-! Lemmas about the coordinator state machine. -/

theorem startedSingle_protoTable (s : ClassState) :
    (startedSingle s).protoTable = s.protoTable := rfl

theorem startedSingle_staticTable (s : ClassState) :
    (startedSingle s).staticTable = s.staticTable := rfl

/-- A copy phase that completes reached the ended callback: both table
copies returned without throwing, the final tables are the copy results,
and the counter/resolver went through the started-then-ended pair. -/
theorem copyPhase_ok_state (s : ClassState) (src : SourceClass)
    (hok : (copyPhase s src).1 = .ok ()) :
    (copyPhase s src).2 =
      endedSingle { startedSingle s with
        protoTable := (copyTable s.protoTable src.protoTable).2,
        staticTable := (copyTable s.staticTable src.staticTable).2 } ∧
    (copyTable s.protoTable src.protoTable).1 = .ok () ∧
    (copyTable s.staticTable src.staticTable).1 = .ok () := by
  cases h1 : copyTable s.protoTable src.protoTable with
  | mk r1 tp =>
    cases h2 : copyTable s.staticTable src.staticTable with
    | mk r2 ts =>
      cases r1 with
      | error e1 =>
        rw [copyPhase, h1] at hok
        cases hok
      | ok u1 =>
        cases r2 with
        | error e2 =>
          rw [copyPhase, h1, h2] at hok
          cases hok
        | ok u2 =>
          refine ⟨?_, rfl, rfl⟩
          rw [copyPhase, h1, h2]

/-- A copy phase that throws never reached the ended callback: the
counter keeps the started increment and the resolver was not invoked. -/
theorem copyPhase_err_state (s : ClassState) (src : SourceClass)
    (e : JSError) (he : (copyPhase s src).1 = .error e) :
    (copyPhase s src).2.count = s.count + 1 ∧
    (copyPhase s src).2.resolveCount = s.resolveCount := by
  cases h1 : copyTable s.protoTable src.protoTable with
  | mk r1 tp =>
    cases r1 with
    | error e1 =>
      rw [copyPhase, h1]
      exact ⟨rfl, rfl⟩
    | ok u1 =>
      cases h2 : copyTable s.staticTable src.staticTable with
      | mk r2 ts =>
        cases r2 with
        | error e2 =>
          rw [copyPhase, h1, h2]
          exact ⟨rfl, rfl⟩
        | ok u2 =>
          rw [copyPhase, h1, h2] at he
          cases he

/-- A completing copy phase entered with the counter at 0 leaves it at 0
again and invokes the promise resolver exactly once. -/
theorem copyPhase_ok_count (s : ClassState) (src : SourceClass)
    (h : s.count = 0) (hok : (copyPhase s src).1 = .ok ()) :
    (copyPhase s src).2.count = 0 ∧
      (copyPhase s src).2.resolveCount = s.resolveCount + 1 := by
  obtain ⟨hst, -, -⟩ := copyPhase_ok_state s src hok
  rw [hst]
  simp [endedSingle, startedSingle, h]

/-- Running a batch of resumptions from a counter-0 state, when every
resumed copy phase completes: the counter returns to 0 and the resolver
has been invoked once per successfully resolved call — in particular once
the first successful call's copy phase ends, regardless of how many calls
are still pending. -/
theorem runResumes_spec (rs : List (Option SourceClass)) (s : ClassState)
    (h : s.count = 0) (hall : allResumesOk s rs = true) :
    (runResumes s rs).count = 0 ∧
      (runResumes s rs).resolveCount =
        s.resolveCount + rs.countP Option.isSome := by
  induction rs generalizing s with
  | nil => simp [runResumes, h]
  | cons r rest ih =>
    rw [allResumesOk, Bool.and_eq_true] at hall
    cases r with
    | none =>
      have hstep : runResumes s (none :: rest) = runResumes s rest := rfl
      rw [hstep]
      have hr := ih s h hall.2
      simp [List.countP_cons, hr.1, hr.2]
    | some src =>
      have hok : (copyPhase s src).1 = .ok () := by
        have := hall.1
        rw [resumeOk] at this
        cases hcp : (copyPhase s src).1 with
        | ok u =>
          cases u
          rfl
        | error e =>
          rw [hcp] at this
          cases this
      have hstep : runResumes s (some src :: rest) =
          runResumes (copyPhase s src).2 rest := rfl
      rw [hstep]
      have hcp := copyPhase_ok_count s src h hok
      have hr := ih (copyPhase s src).2 hcp.1 hall.2
      refine ⟨hr.1, ?_⟩
      rw [hr.2, hcp.2]
      simp [List.countP_cons]
      omega

/-! Claim theorems. -/

/-- Claim C1 (counterexample).  The claim states the completion signal
resolves only after all k `supplementOne` calls have completed their copy
phases.  Concretely refuted with k = 2: both calls are issued (each runs
`addSupplementationMetadata` synchronously), then the first call's source
resolution settles and its copy phase runs — at which point the in-flight
counter is back at 0, the resolver has been invoked, so the signal is
already resolved, while the second call is still pending: its method `m2`
has not been copied onto the target. -/
theorem signal_resolved_before_second_call :
    signalResolved
        (runResumes
          (addSupplementationMetadata (addSupplementationMetadata freshTarget))
          [some srcA]) ∧
      lookupT
          (runResumes
            (addSupplementationMetadata (addSupplementationMetadata freshTarget))
            [some srcA]).protoTable "m2" = none := by
  constructor
  · decide
  · rfl

/-- Claim C1 (amended).  What the code guarantees: starting with the
counter at 0 and the resolver uninvoked, (a) when every resumed copy
phase completes without a strict-mode `TypeError`, the counter returns to
0 at the end of every copy phase and the resolver is invoked once per
successfully resolved call — so the signal (settled as soon as the
resolver has run at least once) is resolved exactly from the first
successful call's copy phase onward, not only after the whole batch, and
it never becomes pending again, so awaiting it multiple times never
observes a second resolution; (b) a copy phase that throws mid-table
skips the ended callback, leaving the counter stuck at 1 and the resolver
uninvoked for that call. -/
theorem signal_resolves_at_first_completed_call (s : ClassState)
    (rs : List (Option SourceClass)) (h0 : s.count = 0)
    (hr : s.resolveCount = 0) :
    (allResumesOk s rs = true →
      (runResumes s rs).count = 0 ∧
      (runResumes s rs).resolveCount = rs.countP Option.isSome ∧
      (signalResolved (runResumes s rs) ↔ ∃ r ∈ rs, r.isSome = true)) ∧
    (∀ (src : SourceClass) (e : JSError), (copyPhase s src).1 = .error e →
      (copyPhase s src).2.count = 1 ∧
      (copyPhase s src).2.resolveCount = 0) := by
  constructor
  · intro hall
    have h := runResumes_spec rs s h0 hall
    refine ⟨h.1, by rw [h.2, hr, Nat.zero_add], ?_⟩
    unfold signalResolved
    rw [h.2, hr, Nat.zero_add]
    rw [Nat.one_le_iff_ne_zero, Ne, ← Nat.le_zero, Nat.not_le,
      List.countP_pos_iff]
  · intro src e he
    have h := copyPhase_err_state s src e he
    constructor
    · rw [h.1, h0]
      decide
    · rw [h.2]
      exact hr

/-- Claim C1 (witness for the amended theorem): a concrete batch of three
issued calls, of which two resolve successfully (with copy phases that
complete) and one is rejected, invokes the resolver exactly twice. -/
theorem signal_resolves_at_first_completed_call_witness :
    (runResumes (addSupplementationMetadata freshTarget)
        [some srcA, none, some srcB]).resolveCount = 2 := by
  have h := signal_resolves_at_first_completed_call
    (addSupplementationMetadata freshTarget) [some srcA, none, some srcB]
    (by decide) (by decide)
  simpa using (h.1 (by decide)).2.1

/-- Claim C2: when the source resolution rejects, `supplement` fails with
an error, and the state it leaves behind is exactly the state after the
synchronous metadata-attachment prefix: the in-flight counter was never
incremented for the attempt (it is the pre-existing count, or the fresh
0), and the resolver-invocation count is untouched, so the failed call
cannot keep the completion signal pending. -/
theorem failed_resolution_rejects_without_increment (s : ClassState) :
    supplementRun s none = (Except.error (), addSupplementationMetadata s) ∧
      (addSupplementationMetadata s).count =
        (if s.hasMetadata then s.count else 0) ∧
      (addSupplementationMetadata s).resolveCount =
        (if s.hasMetadata then s.resolveCount else 0) := by
  refine ⟨rfl, ?_, ?_⟩ <;>
    by_cases h : s.hasMetadata <;> simp [addSupplementationMetadata, h]

/-- Claim C3 (counterexample).  The claim states no side effect on the
target happens before the source resolves, in particular that a failed
resolution leaves no Supplementation Metadata.  Refuted: `supplement`
calls `addSupplementationMetadata(mainClass)` as its first statement,
before the import is even started, so after a failed call on a fresh
target the metadata is present. -/
theorem metadata_created_despite_failed_resolution :
    freshTarget.hasMetadata = false ∧
      ((supplementRun freshTarget none).2).hasMetadata = true := by
  exact ⟨rfl, rfl⟩

/-- Claim C3 (amended).  `supplement` attaches the Supplementation
Metadata at the start of the call, before source resolution; when the
resolution fails, that is the only side effect: the member tables are
unchanged and the in-flight counter holds its pre-existing value (or the
fresh 0 the metadata creation installs), never an increment. -/
theorem failed_resolution_only_creates_metadata (s : ClassState) :
    ((supplementRun s none).2).hasMetadata = true ∧
      ((supplementRun s none).2).protoTable = s.protoTable ∧
      ((supplementRun s none).2).staticTable = s.staticTable ∧
      ((supplementRun s none).2).count =
        (if s.hasMetadata then s.count else 0) := by
  refine ⟨?_, ?_, ?_, ?_⟩ <;>
    by_cases h : s.hasMetadata <;>
      simp [supplementRun, addSupplementationMetadata, h]

/-- A target whose prototype's own `greet` entry is an accessor with a
setter. -/
def accessorTarget : ClassState :=
  ⟨false, 0, 0,
    [("constructor", .dataDesc true (.callable 0)),
     ("greet", .accessorDesc (some 1) (some 2))],
    classStaticTable constructorOnlyClass⟩

/-- A source with a single writable instance method `greet`. -/
def srcGreet : SourceClass := ⟨[("greet", .dataDesc true (.callable 5))], []⟩

/-- Claim C4 (counterexample).  The claim says that after
`supplement(target, S)` completes, the target exposes every writable own
non-constructor member of S with S's value.  Refuted: when the target's
own entry at such a key is an accessor with a setter, the call completes
(the strict-mode assignment invokes the setter) yet the target's entry is
still the accessor, not S's member. -/
theorem completed_supplement_member_not_exposed :
    (supplementRun accessorTarget (some srcGreet)).1 = .ok () ∧
    lookupT (supplementRun accessorTarget (some srcGreet)).2.protoTable
        "greet" = some (.accessorDesc (some 1) (some 2)) := by
  exact ⟨rfl, rfl⟩

/-- Claim C4 (amended).  When the copy phase of `supplement(target, S)`
completes (no strict-mode `TypeError`): every own writable member of S
other than `"constructor"` whose target entry was absent or a writable
data property is exposed on the corresponding target table with S's
value; every key with no writable non-constructor source member is
unchanged, and in particular the `"constructor"` entries are never
copied.  A source member colliding with an accessor target entry routes
through the setter instead of being exposed, and one colliding with a
non-writable target entry makes the call throw rather than complete. -/
theorem supplement_copies_exactly_writable_members
    (s : ClassState) (src : SourceClass)
    (hp : (src.protoTable.map Prod.fst).Nodup)
    (hs : (src.staticTable.map Prod.fst).Nodup)
    (hok : (copyPhase s src).1 = .ok ()) :
    (∀ k d, (k, d) ∈ src.protoTable → k ≠ "constructor" →
        d.isWritable = true → dataAssignable s.protoTable k = true →
        lookupT (copyPhase s src).2.protoTable k =
          some (.dataDesc true d.value)) ∧
      (∀ k d, (k, d) ∈ src.staticTable → k ≠ "constructor" →
        d.isWritable = true → dataAssignable s.staticTable k = true →
        lookupT (copyPhase s src).2.staticTable k =
          some (.dataDesc true d.value)) ∧
      (∀ k, (∀ d, (k, d) ∈ src.protoTable →
          k = "constructor" ∨ d.isWritable = false) →
        lookupT (copyPhase s src).2.protoTable k = lookupT s.protoTable k) ∧
      (∀ k, (∀ d, (k, d) ∈ src.staticTable →
          k = "constructor" ∨ d.isWritable = false) →
        lookupT (copyPhase s src).2.staticTable k = lookupT s.staticTable k) ∧
      lookupT (copyPhase s src).2.protoTable "constructor" =
        lookupT s.protoTable "constructor" ∧
      lookupT (copyPhase s src).2.staticTable "constructor" =
        lookupT s.staticTable "constructor" := by
  obtain ⟨hst, hokp, hoks⟩ := copyPhase_ok_state s src hok
  have hproto : (copyPhase s src).2.protoTable =
      (copyTable s.protoTable src.protoTable).2 := by
    rw [hst]
    rfl
  have hstatic : (copyPhase s src).2.staticTable =
      (copyTable s.staticTable src.staticTable).2 := by
    rw [hst]
    rfl
  rw [hproto, hstatic]
  refine ⟨?_, ?_, ?_, ?_, ?_, ?_⟩
  · intro k d hm hk hw hda
    exact copyTable_lookup_copied src.protoTable s.protoTable k d hp hm hk
      hw hda hokp
  · intro k d hm hk hw hda
    exact copyTable_lookup_copied src.staticTable s.staticTable k d hs hm hk
      hw hda hoks
  · intro k hall
    exact copyTable_lookup_unchanged src.protoTable s.protoTable k hall
  · intro k hall
    exact copyTable_lookup_unchanged src.staticTable s.staticTable k hall
  · exact copyTable_lookup_unchanged src.protoTable s.protoTable
      "constructor" (fun d _ => Or.inl rfl)
  · exact copyTable_lookup_unchanged src.staticTable s.staticTable
      "constructor" (fun d _ => Or.inl rfl)

/-- A demonstration source with a writable instance method `greet`, an
own `constructor` entry, and a writable static method `helper`. -/
def demoSource : SourceClass :=
  ⟨[("constructor", .dataDesc true (.callable 9)),
    ("greet", .dataDesc true (.callable 5))],
   [("helper", .dataDesc true (.callable 6))]⟩

/-- Claim C4 (witness): on the fresh target, the copy phase of
`demoSource` completes and exposes `greet` with the source's value. -/
theorem supplement_copies_exactly_writable_members_witness :
    lookupT (copyPhase freshTarget demoSource).2.protoTable "greet" =
      some (.dataDesc true (.callable 5)) := by
  have h := supplement_copies_exactly_writable_members freshTarget demoSource
    (by decide) (by decide) (by rfl)
  exact h.1 "greet" (.dataDesc true (.callable 5))
    (by decide) (by decide) (by decide) (by decide)

/-- Claim C5 (counterexample).  The claim says a writable descriptor's
value is set over *any* existing entry of the same name.  Refuted: when
the target's existing own entry is a non-writable data property, the
strict-mode assignment throws a `TypeError` — the copy loop aborts and
the entry keeps its old value instead of being overwritten. -/
theorem writable_member_does_not_overwrite_nonwritable_entry :
    (copyTable [("m", .dataDesc false (.prim 0))]
        [("m", .dataDesc true (.callable 1))]).1 = .error .typeError ∧
    lookupT (copyTable [("m", .dataDesc false (.prim 0))]
        [("m", .dataDesc true (.callable 1))]).2 "m" =
      some (.dataDesc false (.prim 0)) := by
  exact ⟨rfl, rfl⟩

/-- Claim C5 (amended).  (i) a key all of whose source descriptors are
non-writable is skipped silently — the target's entry for that key is
exactly what it was, whether or not the loop later aborts elsewhere;
(ii) a writable descriptor is assigned over an existing writable data
entry (or installed at an absent key), so after copying S1 and then S2
onto the same target, a method `m` defined writable in S2 ends up with
S2's value — last writer wins — provided the entry is data-assignable and
S2's copy loop completes; an existing non-writable entry instead makes
the strict-mode assignment throw, and an accessor entry routes through
its setter, never being replaced. -/
theorem supplement_skips_nonwritable_and_last_writer_wins :
    (∀ (tgt src : Table) (k : String),
        (∀ d, (k, d) ∈ src → d.isWritable = false) →
        lookupT (copyTable tgt src).2 k = lookupT tgt k) ∧
      (∀ (tgt s1 s2 : Table) (k : String) (d2 : Descriptor),
        (s2.map Prod.fst).Nodup → (k, d2) ∈ s2 → k ≠ "constructor" →
        d2.isWritable = true →
        dataAssignable (copyTable tgt s1).2 k = true →
        (copyTable (copyTable tgt s1).2 s2).1 = .ok () →
        lookupT (copyTable (copyTable tgt s1).2 s2).2 k =
          some (.dataDesc true d2.value)) := by
  constructor
  · intro tgt src k h
    exact copyTable_lookup_unchanged src tgt k (fun d hd => Or.inr (h d hd))
  · intro tgt s1 s2 k d2 hnd hm hk hw hda hok
    exact copyTable_lookup_copied s2 (copyTable tgt s1).2 k d2 hnd hm hk hw
      hda hok

/-- A source defining method `m` one way. -/
def srcM1 : SourceClass := ⟨[("m", .dataDesc true (.callable 11))], []⟩

/-- A source defining method `m` another way. -/
def srcM2 : SourceClass := ⟨[("m", .dataDesc true (.callable 22))], []⟩

/-- Claim C5 (witness): copying `srcM1` and then `srcM2` onto the fresh
target leaves `m` at `srcM2`'s value. -/
theorem supplement_skips_nonwritable_and_last_writer_wins_witness :
    lookupT
        (copyTable (copyTable freshTarget.protoTable srcM1.protoTable).2
          srcM2.protoTable).2 "m" =
      some (.dataDesc true (.callable 22)) := by
  exact supplement_skips_nonwritable_and_last_writer_wins.2
    freshTarget.protoTable srcM1.protoTable srcM2.protoTable "m"
    (.dataDesc true (.callable 22)) (by decide) (by decide) (by decide)
    (by decide) (by decide) (by rfl)

/-- Claim C6 (code bug).  The claim — and the repository's own test
`testEmptyClass` — say the enumerator on a class that declares only a
constructor yields an empty sequence.  The code disagrees: every class
constructor owns the intrinsic properties `length`, `name` and
`prototype`, `Object.getOwnPropertyDescriptors` reports them and
`Object.entries` enumerates them (the descriptors object's properties are
all enumerable), and none of them is named `"constructor"`, so the
callback is invoked three times. -/
theorem iterateDescriptors_constructor_only_class_not_empty :
    iterateDescriptors (.vobj (classStaticTable constructorOnlyClass)) =
        .ok [("length", .dataDesc false (.prim 0)),
             ("name", .dataDesc false (.prim 1)),
             ("prototype", .dataDesc false (.prim 2))] ∧
      (ownEntriesExceptConstructor
        (classStaticTable constructorOnlyClass)).length = 3 := by
  exact ⟨rfl, rfl⟩

/-- Claim C7 (counterexample).  The claim says `iterateDescriptors` fails
on every input of a type that cannot hold own members (any non-object).
Refuted with the number 5: `Object.getOwnPropertyDescriptors` applies
`ToObject`, which coerces a primitive number to a wrapper object with no
own properties, so the call returns normally with the callback never
invoked instead of failing. -/
theorem iterateDescriptors_number_does_not_fail :
    iterateDescriptors (.vnum 5) = .ok [] := rfl

/-- Claim C7 (amended).  `iterateDescriptors` fails — with the
`TypeError` thrown synchronously by `ToObject` — exactly on `null` and
`undefined`; other primitive inputs are coerced to wrapper objects and
iterated without error (a number or boolean yields an empty sequence). -/
theorem iterateDescriptors_fails_only_on_null_undefined :
    iterateDescriptors .vnull = .error .typeError ∧
      iterateDescriptors .vundef = .error .typeError ∧
      (∀ n, iterateDescriptors (.vnum n) = .ok []) ∧
      (∀ b, iterateDescriptors (.vbool b) = .ok []) := by
  exact ⟨rfl, rfl, fun _ => rfl, fun _ => rfl⟩

/-- Claim C8: on any directory listing with exactly 4 entries whose
extension passes the allow-list and 3 that fail it, `supplementAll`
issues exactly 4 `supplement` calls — one per accepted entry, in listing
order — and never issues a call for a rejected entry. -/
theorem supplementAll_issues_exactly_accepted_calls (files : List String)
    (h4 : files.countP acceptedFile = 4)
    (_h3 : files.countP (fun f => !(acceptedFile f)) = 3) :
    (supplementAllCalls files).length = 4 ∧
      supplementAllCalls files = files.filter acceptedFile ∧
      (∀ f, f ∈ files → acceptedFile f = true → f ∈ supplementAllCalls files) ∧
      (∀ f, acceptedFile f = false → f ∉ supplementAllCalls files) := by
  refine ⟨?_, rfl, ?_, ?_⟩
  · rw [supplementAllCalls, ← List.countP_eq_length_filter]
    exact h4
  · intro f hf ha
    exact List.mem_filter.mpr ⟨hf, ha⟩
  · intro f ha hmem
    have := (List.mem_filter.mp hmem).2
    rw [ha] at this
    cases this

/-- A demonstration listing: one accepted entry of each supported kind
and three rejected entries. -/
def demoListing : List String :=
  ["a.js", "b.ts", "c.mjs", "d.cjs", "e.txt", "f.md", "notes"]

/-- Claim C8 (witness): on the demonstration listing, exactly the four
accepted entries become calls. -/
theorem supplementAll_issues_exactly_accepted_calls_witness :
    (supplementAllCalls demoListing).length = 4 := by
  exact (supplementAll_issues_exactly_accepted_calls demoListing
    (by decide) (by decide)).1

/-- Claim C9 (counterexample).  The claim says the set of members
`supplement` copies is exactly the own writable data properties other
than `"constructor"`.  Refuted: when the target's own entry at the key is
an accessor with a setter, the strict-mode assignment invokes the setter
and succeeds without installing anything, so a writable own data property
of the source is *not* copied even though the copy loop completes. -/
theorem writable_data_member_not_copied_over_accessor :
    (copyTable [("version", .accessorDesc (some 3) (some 4))]
        [("version", .dataDesc true (.prim 7))]).1 = .ok () ∧
    lookupT (copyTable [("version", .accessorDesc (some 3) (some 4))]
        [("version", .dataDesc true (.prim 7))]).2 "version" =
      some (.accessorDesc (some 3) (some 4)) := by
  exact ⟨rfl, rfl⟩

/-- Claim C9 (amended).  (i) a target entry can change only at a
non-constructor key where the source has a writable descriptor; (ii) a
writable own data property is copied even when its value is a
non-callable datum, provided the target's entry at that key is absent or
a writable data property and the copy loop completes; (iii) an accessor
member of the source never affects the target's entry for its key,
because (iv) an accessor descriptor carries no `writable: true` flag and
is therefore always skipped. -/
theorem copied_members_exactly_writable_data_members :
    (∀ (tgt src : Table) (k : String),
        lookupT (copyTable tgt src).2 k ≠ lookupT tgt k →
        ∃ d, (k, d) ∈ src ∧ k ≠ "constructor" ∧ d.isWritable = true) ∧
      (∀ (tgt src : Table) (k : String) (n : Nat),
        (src.map Prod.fst).Nodup → (k, .dataDesc true (.prim n)) ∈ src →
        k ≠ "constructor" → dataAssignable tgt k = true →
        (copyTable tgt src).1 = .ok () →
        lookupT (copyTable tgt src).2 k = some (.dataDesc true (.prim n))) ∧
      (∀ (tgt src : Table) (k : String) (g st : Option Nat),
        (src.map Prod.fst).Nodup → (k, .accessorDesc g st) ∈ src →
        lookupT (copyTable tgt src).2 k = lookupT tgt k) ∧
      (∀ g st, Descriptor.isWritable (.accessorDesc g st) = false) := by
  refine ⟨?_, ?_, ?_, fun _ _ => rfl⟩
  · intro tgt src k hne
    by_contra hnone
    push_neg at hnone
    apply hne
    apply copyTable_lookup_unchanged
    intro d hd
    by_cases hc : k = "constructor"
    · exact Or.inl hc
    · refine Or.inr ?_
      rcases Bool.eq_false_or_eq_true d.isWritable with ht | hf
      · exact absurd ht (hnone d hd hc)
      · exact hf
  · intro tgt src k n hnd hm hk hda hok
    have := copyTable_lookup_copied src tgt k (.dataDesc true (.prim n))
      hnd hm hk rfl hda hok
    simpa [Descriptor.value] using this
  · intro tgt src k g st hnd hm
    apply copyTable_lookup_unchanged
    intro d hd
    have : d = .accessorDesc g st :=
      key_determines_descriptor src hnd k d (.accessorDesc g st) hd hm
    rw [this]
    exact Or.inr rfl

/-- A source with an instance accessor and a writable non-callable static
data field. -/
def srcDataAndAccessor : SourceClass :=
  ⟨[("cached", .accessorDesc (some 3) (some 4))],
   [("version", .dataDesc true (.prim 7))]⟩

/-- Claim C9 (witness): the non-callable static data field `version` is
copied onto the fresh target (whose static entry at `version` is absent,
so the assignment installs it and the copy loop completes). -/
theorem copied_members_exactly_writable_data_members_witness :
    lookupT (copyTable freshTarget.staticTable
        srcDataAndAccessor.staticTable).2 "version" =
      some (.dataDesc true (.prim 7)) := by
  exact copied_members_exactly_writable_data_members.2.1
    freshTarget.staticTable srcDataAndAccessor.staticTable "version" 7
    (by decide) (by decide) (by decide) (by decide) (by rfl)

/-- A source class declaring a static member literally named
`"undefined"`. -/
def srcWithUndefinedName : SourceClass :=
  ⟨[], [("undefined", .dataDesc true (.callable 7))]⟩

/-- Claim C10 (counterexample).  The claim asserts the getters return
`undefined` for every class in every state.  Refuted: both getters read
the string key `"undefined"` (because
`SUPPLEMENTED_SYMBOLS.SUPPLEMENTATION_COMPLETE` is `undefined`), and a
class can own a static member literally named `"undefined"` — here
`supplement` itself installs one from a source that declares it — after
which both getters return that member instead of `undefined`. -/
theorem metadata_getters_see_member_named_undefined :
    getSupplementationMetadata
        (supplementRun freshTarget (some srcWithUndefinedName)).2 =
      some (.memberV (.callable 7)) ∧
    isSupplementationComplete
        (supplementRun freshTarget (some srcWithUndefinedName)).2 =
      some (.memberV (.callable 7)) := by
  exact ⟨rfl, rfl⟩

/-- Claim C10 (amended).  `SUPPLEMENTED_SYMBOLS.SUPPLEMENTATION_COMPLETE`
is not one of the five defined supplementation symbols, so both getters
read `mainClass[undefined]`, i.e. the string key `"undefined"`; on any
class state whose static member table has no own member literally named
`"undefined"`, both `getSupplementationMetadata` and
`isSupplementationComplete` return `undefined` — before, during and after
supplementation alike, since no metadata write ever touches that string
key. -/
theorem metadata_getters_always_return_undefined (s : ClassState)
    (h : lookupT s.staticTable "undefined" = none) :
    symbolFor "SUPPLEMENTATION_COMPLETE" = none ∧
      getSupplementationMetadata s = none ∧
      isSupplementationComplete s = none := by
  have hsym : symbolFor "SUPPLEMENTATION_COMPLETE" = none := by decide
  refine ⟨hsym, ?_, ?_⟩ <;>
    simp [getSupplementationMetadata, isSupplementationComplete, hsym,
      toPropertyKey, getProp, h]

/-- Claim C10 (witness): on the state reached by a completed supplement
call with `demoSource` on the fresh target, both getters return
`undefined`. -/
theorem metadata_getters_always_return_undefined_witness :
    getSupplementationMetadata
        ((supplementRun freshTarget (some demoSource)).2) = none := by
  exact (metadata_getters_always_return_undefined
    ((supplementRun freshTarget (some demoSource)).2) (by decide)).2.1